import Mathlib

/-!
Verification of the configuration-resolution core of `peaclock`
(`peaclock/scripts/peaclockfunks.py`) against its natural-language
specification.  The Python module is shallowly embedded: the mutable
configuration dictionary becomes an association list of string keys to
dynamically-typed values, Python truthiness is made explicit, fatal
`sys.exit` paths and runtime exceptions (NameError, KeyError, TypeError)
become `Except` errors, and file-system observations (file existence,
directory walks, temp-directory allocation) are passed in as explicit
parameters.  Every definition is translated from the source file; the one
definition written from the specification text instead of the source
(`matchesBarcodePattern`) is documented as such at its declaration.
-/

/-- Runtime outcomes of the Python code that abort normal control flow:
`fatal` models a `sys.stderr.write(...)` followed by `sys.exit(-1)`;
the other constructors model the corresponding Python exceptions. -/
inductive PyErr where
  | nameError (n : String)
  | keyError (k : String)
  | typeError (m : String)
  | indexError (m : String)
  | fatal (msg : String)
  deriving Repr, DecidableEq

/-- Dynamically-typed configuration values, covering the value shapes the
source stores in its config dict: booleans, strings, integers and lists
of strings. -/
inductive Value where
  | vBool (b : Bool)
  | vStr (s : String)
  | vNat (n : Nat)
  | vStrList (l : List String)
  deriving Repr, DecidableEq

/-- Python truthiness of a configuration value (`if arg:` etc.). -/
def truthy : Value → Bool
  | .vBool b => b
  | .vStr s => s != ""
  | .vNat n => n != 0
  | .vStrList l => !l.isEmpty

/-- The configuration dictionary: an association list from option name to
value.  `setConfig` implements Python dict assignment (overwrite the
existing binding or append a new one); `getConfig` implements lookup. -/
abbrev Config := List (String × Value)

def setConfig : Config → String → Value → Config
  | [], k, v => [(k, v)]
  | (k0, v0) :: rest, k, v =>
    if k0 = k then (k, v) :: rest else (k0, v0) :: setConfig rest k v

def getConfig : Config → String → Option Value
  | [], _ => none
  | (k0, v0) :: rest, k => if k0 = k then some v0 else getConfig rest k

/-- Embedding of `get_defaults`: the built-in default configuration. -/
def get_defaults : Config :=
  [("no_temp", .vBool false),
   ("demultiplex", .vBool false),
   ("path_to_guppy", .vBool false),
   ("output_prefix", .vStr "peaclock"),
   ("species", .vStr "apodemus"),
   ("barcodes", .vStr "native"),
   ("configfile", .vStr "config.yaml"),
   ("allowed_species", .vStrList ["apodemus", "mus", "phalacrocorax"]),
   ("force", .vBool true)]

/-- Embedding of `add_arg_to_config(key, arg, config)`: merge a
command-line argument into the config only when it is truthy. -/
def add_arg_to_config (key : String) (arg : Value) (config : Config) : Config :=
  if truthy arg then setConfig config key arg else config

/-- Python `str.replace` specialised to single-character patterns, as used
by `key.replace("-", "_")`. -/
def pyReplaceChar (s : String) (a b : Char) : String :=
  ⟨s.toList.map fun c => if c = a then b else c⟩

/-- Python `str.lstrip` specialised to a single strip character, as used
by `.lstrip("-")`: drop every leading occurrence of that character. -/
def pyLstrip (s : String) (c : Char) : String :=
  ⟨s.toList.dropWhile fun d => d = c⟩

/-- Key normalisation performed by `parse_yaml_file`:
`key.replace("-", "_").lstrip("-")`, in that order. -/
def snakecase_key (key : String) : String :=
  pyLstrip (pyReplaceChar key '-' '_') '-'

/-- Embedding of `parse_yaml_file`: the parsed YAML mapping is given as a
list of key/value pairs in file order, and each pair is written into the
config under its normalised key. -/
def parse_yaml_file (input_config : List (String × Value)) (config : Config) : Config :=
  input_config.foldl (fun c kv => setConfig c (snakecase_key kv.1) kv.2) config

/-- Python `",".join(...)` on a list of strings. -/
def pyJoin (sep : String) : List String → String
  | [] => ""
  | [x] => x
  | x :: xs => x ++ sep ++ pyJoin sep xs

/-- List-level string prefix test (first argument: the string, second: the
candidate prefix), the computational core of Python `str.startswith`. -/
def listStartsWith : List Char → List Char → Bool
  | _, [] => true
  | [], _ :: _ => false
  | c :: cs, p :: ps => c = p && listStartsWith cs ps

/-- Python `s.startswith(p)`. -/
def pyStartswith (s p : String) : Bool :=
  listStartsWith s.toList p.toList

/-- Python `s.endswith(p)`. -/
def pyEndswith (s p : String) : Bool :=
  listStartsWith s.toList.reverse p.toList.reverse

/-- Python `s.lower()`. -/
def pyLower (s : String) : String :=
  ⟨s.toList.map Char.toLower⟩

/-- The row loop of `look_for_barcodes_csv`: each row's `barcode` value is
accepted when it starts with `NB` or `BC` and appended in row order; the
first invalid value aborts with the fatal format error. -/
def collectBarcodes : List String → Except PyErr (List String)
  | [] => .ok []
  | r :: rs =>
    if pyStartswith r "NB" || pyStartswith r "BC" then
      match collectBarcodes rs with
      | .ok bs => .ok (r :: bs)
      | .error e => .error e
    else .error (.fatal "Please provide barcodes in the format `NB01` or `BC01`")

/-- The CSV-processing core of `look_for_barcodes_csv`, given the header
field names and the `barcode` column of the data rows: require the
`barcode` header, collect the row values, and join them with commas. -/
def look_for_barcodes_rows (fieldnames : List String) (rows : List String) :
    Except PyErr (List String × String) :=
  if "barcode" ∈ fieldnames then
    match collectBarcodes rows with
    | .ok barcodes => .ok (barcodes, pyJoin "," barcodes)
    | .error e => .error e
  else .error (.fatal "Barcode file missing header field `barcode`")

/-- Modelled from the spec: a string matches the regular expression
`NB\d+` or `BC\d+` when it starts with `NB` or `BC` immediately followed
by at least one decimal digit.  This definition exists only to compare
the code's acceptance test against the pattern the specification states;
it is not part of the source. -/
def matchesBarcodePattern (s : String) : Bool :=
  (pyStartswith s "NB" || pyStartswith s "BC") &&
    (match s.toList.drop 2 with
     | c :: _ => c.isDigit
     | [] => false)

-- Basic dictionary lemmas shared by several claim proofs.

theorem getConfig_setConfig_self (c : Config) (k : String) (v : Value) :
    getConfig (setConfig c k v) k = some v := by
  induction c with
  | nil => simp [setConfig, getConfig]
  | cons hd tl ih =>
    obtain ⟨k0, v0⟩ := hd
    by_cases hk : k0 = k
    · simp [setConfig, getConfig, hk]
    · simp [setConfig, getConfig, hk, ih]

theorem collectBarcodes_all_valid (rows : List String)
    (h : ∀ r ∈ rows, pyStartswith r "NB" = true ∨ pyStartswith r "BC" = true) :
    collectBarcodes rows = .ok rows := by
  induction rows with
  | nil => rfl
  | cons r rs ih =>
    have hr := h r (by simp)
    have hrs : collectBarcodes rs = .ok rs := ih fun x hx => h x (by simp [hx])
    rcases hr with hr | hr <;> simp [collectBarcodes, hr, hrs]

/-- C2 counterexample: the claim states that the YAML key `--read-dir`
resolves to the config key `read_dir`.  On the code, hyphens are replaced
by underscores before the `lstrip`, so `--read-dir` resolves to
`__read_dir` and the key `read_dir` is not written at all. -/
theorem C2_counterexample :
    getConfig (parse_yaml_file [("--read-dir", .vStr "reads/")] get_defaults) "read_dir"
        = none
      ∧ getConfig (parse_yaml_file [("--read-dir", .vStr "reads/")] get_defaults)
          "__read_dir" = some (.vStr "reads/")
      ∧ snakecase_key "--read-dir" = "__read_dir" := by
  refine ⟨by decide, by decide, by decide⟩

/-- C2 (amended): `parse_yaml_file` stores each parsed value under
`key.replace("-", "_").lstrip("-")`, overwriting any earlier binding of
the same normalised key.  Because the replacement runs first, the strip of
leading hyphens is a no-op: `read-dir` normalises to `read_dir`, but
`--read-dir` normalises to `__read_dir` (leading hyphens become leading
underscores). -/
theorem C2_parse_yaml_amended :
    (∀ (kvs : List (String × Value)) (config : Config) (k : String) (v : Value),
      getConfig (parse_yaml_file (kvs ++ [(k, v)]) config) (snakecase_key k) = some v)
      ∧ snakecase_key "read-dir" = "read_dir"
      ∧ snakecase_key "--read-dir" = "__read_dir" := by
  refine ⟨?_, by decide, by decide⟩
  intro kvs config k v
  unfold parse_yaml_file
  rw [List.foldl_append]
  simp [getConfig_setConfig_self]

/-- C4: for a barcode CSV whose header contains `barcode` and whose rows
all carry values starting with `NB` or `BC`, the resolver collects the
values in row order and joins them with commas. -/
theorem C4_barcodes_collected_in_order (fieldnames rows : List String)
    (hf : "barcode" ∈ fieldnames)
    (hr : ∀ r ∈ rows, pyStartswith r "NB" = true ∨ pyStartswith r "BC" = true) :
    look_for_barcodes_rows fieldnames rows = .ok (rows, pyJoin "," rows) := by
  simp [look_for_barcodes_rows, hf, collectBarcodes_all_valid rows hr]

/-- C4 witness: the claim's own example, rows NB01, NB02, BC03. -/
theorem C4_witness :
    look_for_barcodes_rows ["name", "barcode"] ["NB01", "NB02", "BC03"]
      = .ok (["NB01", "NB02", "BC03"], "NB01,NB02,BC03") := by
  have h := C4_barcodes_collected_in_order ["name", "barcode"] ["NB01", "NB02", "BC03"]
    (by decide) (by decide)
  exact h

/-- C5 counterexample: the row value `NBx` is accepted by the code (it
starts with `NB`) yet does not match the pattern `NB\d+` or `BC\d+`,
since no digit follows the prefix. -/
theorem C5_counterexample :
    collectBarcodes ["NBx"] = .ok ["NBx"] ∧ matchesBarcodePattern "NBx" = false := by
  refine ⟨rfl, by decide⟩

/-- C5 (amended): every string accepted into the parsed barcode list
starts with `NB` or `BC`; the code constrains only this two-letter
prefix, not the remainder, so digits are not required. -/
theorem C5_accepted_barcodes_have_prefix (rows bs : List String)
    (h : collectBarcodes rows = .ok bs) :
    ∀ b ∈ bs, pyStartswith b "NB" = true ∨ pyStartswith b "BC" = true := by
  induction rows generalizing bs with
  | nil =>
    simp only [collectBarcodes, Except.ok.injEq] at h
    subst h
    intro b hb
    exact absurd hb (List.not_mem_nil b)
  | cons r rs ih =>
    by_cases hv : (pyStartswith r "NB" || pyStartswith r "BC") = true
    · cases hrec : collectBarcodes rs with
      | error e =>
        simp only [collectBarcodes, if_pos hv, hrec] at h
        cases h
      | ok bs0 =>
        simp only [collectBarcodes, if_pos hv, hrec, Except.ok.injEq] at h
        subst h
        intro b hb
        rcases List.mem_cons.mp hb with rfl | hb0
        · simpa using hv
        · exact ih bs0 hrec b hb0
    · simp only [collectBarcodes, if_neg hv] at h
      cases h

/-- C5 witness: the amended invariant instantiated on a concrete accepted
row list. -/
theorem C5_witness :
    collectBarcodes ["NB01"] = .ok ["NB01"]
      ∧ (∀ b ∈ ["NB01"], pyStartswith b "NB" = true ∨ pyStartswith b "BC" = true) := by
  refine ⟨rfl, C5_accepted_barcodes_have_prefix ["NB01"] ["NB01"] rfl⟩

/-- POSIX `os.path.join` on two components: an absolute second component
replaces the first, otherwise the parts are joined with a single slash. -/
def os_path_join (a b : String) : String :=
  if pyStartswith b "/" then b
  else if a = "" then b
  else if pyEndswith a "/" then a ++ b
  else a ++ "/" ++ b

/-- POSIX `os.path.expanduser` with the home directory passed explicitly:
a leading `~` is replaced by the home directory, anything else is
returned unchanged. -/
def os_path_expanduser (home s : String) : String :=
  if s = "~" then home
  else if pyStartswith s "~/" then home ++ String.mk (s.toList.drop 1)
  else s

/-- Embedding of `look_for_config`.  The file system is abstracted as the
`isfile` predicate.  In the explicit-argument branch the source computes
`os.path.abspath(os.path.dirname(input_file))`, but no variable named
`input_file` is bound anywhere in the module, so Python raises a
NameError before any file-existence check; the embedding maps that whole
branch to the NameError.  The no-argument branch is embedded faithfully:
it records the working directory as `path_to_config`, keeps
`cwd/config.yaml` when it exists, and otherwise resets the configfile to
the empty string without failing. -/
def look_for_config (configfile_arg cwd : String) (config : Config)
    (isfile : String → Bool) : Except PyErr (Config × String) :=
  if configfile_arg != "" then
    .error (.nameError "input_file")
  else
    let configfile := os_path_join cwd "config.yaml"
    let config := setConfig config "path_to_config" (.vStr cwd)
    if isfile configfile then
      .ok (setConfig config "configfile" (.vStr configfile), configfile)
    else
      .ok (config, "")

/-- Embedding of `look_for_guppy_barcoder`.  Its first statement is
`qcfunk.add_arg_to_config(demultiplex_arg, "demultiplex", config)`, but
the module never imports or defines a name `qcfunk` (the function
`add_arg_to_config` lives in this very module, and the call also passes
the key and argument in swapped positions relative to that function's
`(key, arg, config)` signature).  Evaluating the call therefore raises a
NameError before any merge or demultiplexing logic runs, and the
embedding maps every invocation to that error. -/
def look_for_guppy_barcoder (demultiplex_arg path_to_guppy_arg : Value)
    (cwd : String) (config : Config) : Except PyErr Config :=
  .error (.nameError "qcfunk")

/-- Embedding of `look_for_basecalled_reads`.  The file system is
abstracted by `path_exists` and by `walkFiles`, which returns the file
names encountered by `os.walk` under a directory.  Branches, in source
order: a truthy CLI argument is resolved against the working directory
and must exist; otherwise a `read_path` key in the config is consulted,
and only a truthy value triggers resolution against `path_to_config` and
the recursive fastq scan (a falsy value falls through with no action);
with no `read_path` key at all the function exits fatally. -/
def look_for_basecalled_reads (home read_path_arg cwd : String) (config : Config)
    (path_exists : String → Bool) (walkFiles : String → List String) :
    Except PyErr Config :=
  if read_path_arg != "" then
    let expanded_path := os_path_expanduser home read_path_arg
    let read_path := os_path_join cwd expanded_path
    if path_exists read_path then
      .ok (setConfig config "read_path" (.vStr read_path))
    else
      .error (.fatal ("cannot find reads at " ++ read_path))
  else
    match getConfig config "read_path" with
    | some v =>
      if truthy v then
        match v with
        | .vStr rp =>
          match getConfig config "path_to_config" with
          | some (.vStr ptc) =>
            let read_path := os_path_join ptc (os_path_expanduser home rp)
            let fq_files := ((walkFiles read_path).filter fun fn =>
              pyEndswith (pyLower fn) ".fastq" || pyEndswith (pyLower fn) ".fq").length
            if fq_files > 0 then .ok config
            else .error (.fatal ("cannot find fastq files at " ++ read_path))
          | some _ => .error (.typeError "path_to_config is not a string path")
          | none => .error (.keyError "path_to_config")
        | _ => .error (.typeError "expanduser expects a string")
      else .ok config
    | none => .error (.fatal "`--read-dir` needed")

/-- C6: with an explicit configfile argument, `look_for_config` is
claimed to record the containing directory as `path_to_config` and the
resolved path as `configfile`, failing fatally only when the file is
missing.  In fact the branch dereferences the unbound name `input_file`
and raises a NameError for every explicit argument, even when the
resolved file exists, so neither key is ever recorded. -/
theorem C6_explicit_configfile_name_error :
    look_for_config "myconfig.yaml" "/work" get_defaults (fun _ => true)
        = .error (.nameError "input_file")
      ∧ look_for_config "myconfig.yaml" "/work" get_defaults (fun _ => false)
        = .error (.nameError "input_file") := ⟨rfl, rfl⟩

/-- C1: the precedence claim requires the CLI `demultiplex` and
`path_to_guppy` values to override the defaults inside
`look_for_guppy_barcoder`.  The function instead raises a NameError on
the unbound `qcfunk` before any merge, so the CLI values are never
applied: with a truthy CLI `demultiplex` the default `false` is all the
configuration ever holds. -/
theorem C1_guppy_precedence_never_applied :
    look_for_guppy_barcoder (.vBool true) (.vStr "/opt/ont-guppy/bin") "/work" get_defaults
        = .error (.nameError "qcfunk")
      ∧ getConfig get_defaults "demultiplex" = some (.vBool false)
      ∧ add_arg_to_config "demultiplex" (.vBool true) get_defaults
          = setConfig get_defaults "demultiplex" (.vBool true) := by
  refine ⟨rfl, by decide, rfl⟩

/-- C7 counterexample: the claim says a config `read_path` key with an
empty value is fatal.  On the code, the inner `if config["read_path"]:`
has no `else`, so an empty value falls through and the function returns
without any error. -/
theorem C7_counterexample :
    look_for_basecalled_reads "/home/user" "" "/work"
        (setConfig get_defaults "read_path" (.vStr ""))
        (fun _ => false) (fun _ => [])
      = .ok (setConfig get_defaults "read_path" (.vStr "")) := rfl

/-- C7 (amended): with no CLI read-directory argument,
`look_for_basecalled_reads` fails fatally exactly when the config has no
`read_path` key at all; a `read_path` key with an empty value silently
does nothing; a non-empty config read path is resolved against the
config file's directory and the recursive scan failing to find any file
ending in `.fastq` or `.fq` (case-insensitively) is fatal, while finding
at least one is accepted. -/
theorem C7_read_path_amended :
    (∀ (home cwd : String) (config : Config) (pe : String → Bool)
        (wf : String → List String),
      getConfig config "read_path" = none →
        look_for_basecalled_reads home "" cwd config pe wf
          = .error (.fatal "`--read-dir` needed"))
      ∧ (∀ (home cwd : String) (config : Config) (pe : String → Bool)
          (wf : String → List String),
        getConfig config "read_path" = some (.vStr "") →
          look_for_basecalled_reads home "" cwd config pe wf = .ok config)
      ∧ (∀ (home cwd : String) (config : Config) (pe : String → Bool)
          (wf : String → List String) (rp ptc : String),
        rp ≠ "" →
        getConfig config "read_path" = some (.vStr rp) →
        getConfig config "path_to_config" = some (.vStr ptc) →
          look_for_basecalled_reads home "" cwd config pe wf
            = (if ((wf (os_path_join ptc (os_path_expanduser home rp))).filter fun fn =>
                  pyEndswith (pyLower fn) ".fastq" || pyEndswith (pyLower fn) ".fq").length
                    > 0
               then .ok config
               else .error (.fatal ("cannot find fastq files at "
                 ++ os_path_join ptc (os_path_expanduser home rp))))) := by
  refine ⟨?_, ?_, ?_⟩
  · intro home cwd config pe wf h
    simp [look_for_basecalled_reads, h]
  · intro home cwd config pe wf h
    simp [look_for_basecalled_reads, h, truthy]
  · intro home cwd config pe wf rp ptc hne h1 h2
    simp [look_for_basecalled_reads, h1, h2, truthy, hne]

/-- C7 witness: the three amended behaviours at concrete inputs. -/
theorem C7_witness :
    look_for_basecalled_reads "/h" "" "/w" get_defaults (fun _ => false) (fun _ => [])
        = .error (.fatal "`--read-dir` needed")
      ∧ look_for_basecalled_reads "/h" "" "/w"
          (setConfig get_defaults "read_path" (.vStr "")) (fun _ => false) (fun _ => [])
          = .ok (setConfig get_defaults "read_path" (.vStr ""))
      ∧ look_for_basecalled_reads "/h" "" "/w"
          (setConfig (setConfig get_defaults "path_to_config" (.vStr "/conf"))
            "read_path" (.vStr "reads"))
          (fun _ => false) (fun _ => ["sample.FASTQ"])
          = .ok (setConfig (setConfig get_defaults "path_to_config" (.vStr "/conf"))
              "read_path" (.vStr "reads")) := by
  refine ⟨C7_read_path_amended.1 "/h" "/w" get_defaults _ _ (by decide), ?_, ?_⟩
  · exact C7_read_path_amended.2.1 "/h" "/w" _ _ _ (by decide)
  · have h := C7_read_path_amended.2.2 "/h" "/w"
      (setConfig (setConfig get_defaults "path_to_config" (.vStr "/conf"))
        "read_path" (.vStr "reads"))
      (fun _ => false) (fun _ => ["sample.FASTQ"]) "reads" "/conf"
      (by decide) (by decide) (by decide)
    rw [h]
    rfl

/-- Outcome of `get_temp_dir`.  Besides the updated configuration and the
returned `tempdir` value, the embedding records which
`tempfile.TemporaryDirectory` objects the call created (`allocated`, by
their directory names) and which of those objects are still referenced
by anything surviving the call (`escaped`).  In the source the object is
bound only to the function-local `temporary_directory` and only its
`.name` string is stored, so nothing ever escapes. -/
structure TempDirResult where
  config : Config
  tempdir : Value
  allocated : List String
  escaped : List String
  deriving Repr, DecidableEq

/-- Embedding of `get_temp_dir`.  `mkdtemp_in d` is the fresh directory
name the system picks for `tempfile.TemporaryDirectory(dir=d)`, and
`sys_mkdtemp` the name picked for `tempfile.TemporaryDirectory(dir=None)`
in the system default location; the `os.mkdir` side effect on a missing
parent directory is not observable at the value level and is not
recorded.  Branches in source order: a truthy `no_temp` argument, a
truthy config `no_temp`, a truthy temp-directory argument, a `tempdir`
key present in the config, and otherwise the system-default temporary
directory. -/
def get_temp_dir (home tempdir_arg : String) (no_temp_arg : Bool) (cwd : String)
    (config : Config) (mkdtemp_in : String → String) (sys_mkdtemp : String) :
    Except PyErr TempDirResult :=
  match getConfig config "outdir" with
  | none => .error (.keyError "outdir")
  | some outdir =>
    if no_temp_arg then
      let config := setConfig config "no_temp" (.vBool no_temp_arg)
      .ok ⟨setConfig config "tempdir" outdir, outdir, [], []⟩
    else
      match getConfig config "no_temp" with
      | none => .error (.keyError "no_temp")
      | some nt =>
        if truthy nt then
          .ok ⟨setConfig config "tempdir" outdir, outdir, [], []⟩
        else if tempdir_arg != "" then
          let to_be_dir := os_path_join cwd (os_path_expanduser home tempdir_arg)
          let name := mkdtemp_in to_be_dir
          .ok ⟨setConfig config "tempdir" (.vStr name), .vStr name, [name], []⟩
        else
          match getConfig config "tempdir" with
          | some (.vStr t) =>
            let to_be_dir := os_path_join cwd (os_path_expanduser home t)
            let name := mkdtemp_in to_be_dir
            .ok ⟨setConfig config "tempdir" (.vStr name), .vStr name, [name], []⟩
          | some _ => .error (.typeError "expanduser expects a string")
          | none =>
            .ok ⟨setConfig config "tempdir" (.vStr sys_mkdtemp), .vStr sys_mkdtemp,
              [sys_mkdtemp], []⟩

/-- C3: in the default branch and in both explicit temp-directory
branches, `get_temp_dir` allocates a `TemporaryDirectory` object but the
object is referenced only by a function-local, so no reference survives
the call (`escaped = []`) even though the directory's name is recorded
as `tempdir`.  The object's finalizer deletes the backing directory as
soon as the last reference is dropped — under CPython, at the return of
`get_temp_dir`, before the resolved configuration reaches the downstream
pipeline — contradicting the claim that the recorded directory is never
deleted by this core before the hand-off. -/
theorem C3_tempdir_handle_dropped :
    (∃ r, get_temp_dir "/home/u" "" false "/work"
          (setConfig get_defaults "outdir" (.vStr "/work/peaclock_out"))
          (fun p => os_path_join p "tmpabc123") "/tmp/tmpsys42"
        = .ok r
      ∧ r.allocated = ["/tmp/tmpsys42"] ∧ r.escaped = []
      ∧ getConfig r.config "tempdir" = some (.vStr "/tmp/tmpsys42"))
      ∧ (∃ r, get_temp_dir "/home/u" "scratch" false "/work"
            (setConfig get_defaults "outdir" (.vStr "/work/peaclock_out"))
            (fun p => os_path_join p "tmpabc123") "/tmp/tmpsys42"
          = .ok r
        ∧ r.allocated = ["/work/scratch/tmpabc123"] ∧ r.escaped = []
        ∧ getConfig r.config "tempdir" = some (.vStr "/work/scratch/tmpabc123"))
      ∧ (∃ r, get_temp_dir "/home/u" "" false "/work"
            (setConfig (setConfig get_defaults "outdir" (.vStr "/work/peaclock_out"))
              "tempdir" (.vStr "scratch2"))
            (fun p => os_path_join p "tmpabc123") "/tmp/tmpsys42"
          = .ok r
        ∧ r.allocated = ["/work/scratch2/tmpabc123"] ∧ r.escaped = []
        ∧ getConfig r.config "tempdir" = some (.vStr "/work/scratch2/tmpabc123")) := by
  refine ⟨⟨_, rfl, rfl, rfl, by decide⟩, ⟨_, rfl, rfl, rfl, by decide⟩,
    ⟨_, rfl, rfl, rfl, by decide⟩⟩

/-- C8: whenever the no-temp flag is set — by the command-line argument
or by a truthy `no_temp` config value — the `tempdir` recorded by
`get_temp_dir` is exactly the `outdir` value already in the
configuration. -/
theorem C8_no_temp_uses_outdir (home ta cwd : String) (no_temp_arg : Bool)
    (config : Config) (mk : String → String) (sys : String) (od : Value)
    (hod : getConfig config "outdir" = some od)
    (h : no_temp_arg = true
      ∨ (no_temp_arg = false
          ∧ ∃ nt, getConfig config "no_temp" = some nt ∧ truthy nt = true)) :
    ∃ c2, get_temp_dir home ta no_temp_arg cwd config mk sys = .ok ⟨c2, od, [], []⟩
      ∧ getConfig c2 "tempdir" = some od := by
  rcases h with h | ⟨h, nt, hnt, htr⟩
  · subst h
    refine ⟨setConfig (setConfig config "no_temp" (.vBool true)) "tempdir" od, ?_, ?_⟩
    · simp [get_temp_dir, hod]
    · exact getConfig_setConfig_self ..
  · subst h
    refine ⟨setConfig config "tempdir" od, ?_, ?_⟩
    · simp [get_temp_dir, hod, hnt, htr]
    · exact getConfig_setConfig_self ..

/-- C8 witness: the CLI no-temp flag on a configuration whose output
directory is `/work/out`. -/
theorem C8_witness :
    ∃ c2, get_temp_dir "/home/u" "" true "/work"
        (setConfig get_defaults "outdir" (.vStr "/work/out")) (fun p => p) "/tmp/t0"
        = .ok ⟨c2, .vStr "/work/out", [], []⟩
      ∧ getConfig c2 "tempdir" = some (.vStr "/work/out") :=
  C8_no_temp_uses_outdir "/home/u" "" "/work" true
    (setConfig get_defaults "outdir" (.vStr "/work/out")) (fun p => p) "/tmp/t0"
    (.vStr "/work/out") (by decide) (Or.inl rfl)

/-- Python `sorted` on a list of record lengths. -/
def sortNat (l : List Nat) : List Nat := List.insertionSort (· ≤ ·) l

/-- Embedding of `get_read_length_filter`, abstracted over the list of
FASTA record lengths produced by the parse (`len(record)` per record, in
file order): the lengths are sorted, `min_length` is set to `lengths[0]`
and `max_length` to `lengths[-1] + 200`.  Indexing an empty sorted list
has no value in Python (IndexError), which the embedding makes explicit
as an error branch. -/
def get_read_length_filter (lengths : List Nat) (config : Config) :
    Except PyErr Config :=
  match (sortNat lengths).head?, (sortNat lengths).getLast? with
  | some mn, some mx =>
    .ok (setConfig (setConfig config "min_length" (.vNat mn)) "max_length"
      (.vNat (mx + 200)))
  | _, _ => .error (.indexError "list index out of range")

-- Helper lemmas about sorted lists and the read-length computation.

theorem sortNat_eq_nil_iff (l : List Nat) : sortNat l = [] ↔ l = [] := by
  constructor
  · intro h
    have hperm := List.perm_insertionSort (· ≤ ·) l
    rw [sortNat] at h
    rw [h] at hperm
    exact (hperm.symm.eq_nil)
  · intro h
    subst h
    rfl

theorem sorted_cons_le (a : Nat) (t : List Nat)
    (hs : List.Sorted (· ≤ ·) (a :: t)) : ∀ x ∈ a :: t, a ≤ x := by
  intro x hx
  rcases List.mem_cons.mp hx with rfl | hx
  · exact le_refl x
  · exact (List.sorted_cons.mp hs).1 x hx

theorem sorted_le_getLast :
    ∀ (l : List Nat), List.Sorted (· ≤ ·) l → ∀ (hne : l ≠ []) (x : Nat), x ∈ l →
      x ≤ l.getLast hne := by
  intro l
  induction l with
  | nil => intro _ hne; cases hne rfl
  | cons a t ih =>
    intro hs hne x hx
    cases t with
    | nil =>
      rcases List.mem_cons.mp hx with rfl | hx
      · simp [List.getLast]
      · exact absurd hx (List.not_mem_nil x)
    | cons b t2 =>
      have hne2 : b :: t2 ≠ [] := List.cons_ne_nil b t2
      have hgl : (a :: b :: t2).getLast hne = (b :: t2).getLast hne2 :=
        List.getLast_cons hne2
      rcases List.mem_cons.mp hx with rfl | hx
      · have hmem : (b :: t2).getLast hne2 ∈ b :: t2 := List.getLast_mem hne2
        have hle := (List.sorted_cons.mp hs).1 _ hmem
        rw [hgl]
        exact hle
      · rw [hgl]
        exact ih (List.sorted_cons.mp hs).2 hne2 x hx

theorem get_read_length_filter_cons_eq (lengths : List Nat) (config : Config)
    (a : Nat) (t : List Nat) (hs : sortNat lengths = a :: t) :
    get_read_length_filter lengths config
      = .ok (setConfig (setConfig config "min_length" (.vNat a)) "max_length"
          (.vNat ((a :: t).getLast (List.cons_ne_nil a t) + 200))) := by
  simp only [get_read_length_filter, hs, List.head?_cons,
    List.getLast?_eq_getLast (a :: t) (List.cons_ne_nil a t)]

/-- C9: for a non-empty list of gene record lengths,
`get_read_length_filter` records `min_length` as the length of the
shortest record and `max_length` as the length of the longest record
plus 200. -/
theorem C9_read_length_bounds (lengths : List Nat) (config : Config)
    (h : lengths ≠ []) :
    ∃ mn mx, mn ∈ lengths ∧ mx ∈ lengths
      ∧ (∀ x ∈ lengths, mn ≤ x ∧ x ≤ mx)
      ∧ get_read_length_filter lengths config
        = .ok (setConfig (setConfig config "min_length" (.vNat mn)) "max_length"
            (.vNat (mx + 200))) := by
  have hperm := List.perm_insertionSort (· ≤ ·) lengths
  have hsort := List.sorted_insertionSort (· ≤ ·) lengths
  cases hs : sortNat lengths with
  | nil => exact absurd ((sortNat_eq_nil_iff lengths).mp hs) h
  | cons a t =>
    have hperm2 : List.Perm (a :: t) lengths := by
      rw [sortNat] at hs
      rw [hs] at hperm
      exact hperm
    have hsort2 : List.Sorted (· ≤ ·) (a :: t) := by
      rw [sortNat] at hs
      rw [hs] at hsort
      exact hsort
    refine ⟨a, (a :: t).getLast (List.cons_ne_nil a t), ?_, ?_, ?_, ?_⟩
    · exact hperm2.mem_iff.mp (List.mem_cons_self a t)
    · exact hperm2.mem_iff.mp (List.getLast_mem (List.cons_ne_nil a t))
    · intro x hx
      have hx2 : x ∈ a :: t := hperm2.mem_iff.mpr hx
      exact ⟨sorted_cons_le a t hsort2 x hx2,
        sorted_le_getLast (a :: t) hsort2 (List.cons_ne_nil a t) x hx2⟩
    · exact get_read_length_filter_cons_eq lengths config a t hs

/-- C9 witness: the claim's example, record lengths 180 and 220. -/
theorem C9_witness :
    ∃ mn mx, mn ∈ [180, 220] ∧ mx ∈ [180, 220]
      ∧ (∀ x ∈ [180, 220], mn ≤ x ∧ x ≤ mx)
      ∧ get_read_length_filter [180, 220] get_defaults
        = .ok (setConfig (setConfig get_defaults "min_length" (.vNat mn)) "max_length"
            (.vNat (mx + 200))) :=
  C9_read_length_bounds [180, 220] get_defaults (by decide)

/-- C10: `get_read_length_filter` on zero parsed records takes the
explicit index-error branch of the embedding, and under the
at-least-one-record precondition that error branch is unreachable: the
function always succeeds. -/
theorem C10_empty_fasta_guarded :
    (∀ config : Config, get_read_length_filter [] config
        = .error (.indexError "list index out of range"))
      ∧ (∀ (lengths : List Nat) (config : Config), lengths ≠ [] →
          ∃ c2, get_read_length_filter lengths config = .ok c2) := by
  refine ⟨fun config => rfl, fun lengths config hne => ?_⟩
  cases hs : sortNat lengths with
  | nil => exact absurd ((sortNat_eq_nil_iff lengths).mp hs) hne
  | cons a t => exact ⟨_, get_read_length_filter_cons_eq lengths config a t hs⟩

/-- C10 witness: the empty record list errs; a one-record list
succeeds. -/
theorem C10_witness :
    get_read_length_filter [] get_defaults
        = .error (.indexError "list index out of range")
      ∧ ∃ c2, get_read_length_filter [300] get_defaults = .ok c2 :=
  ⟨C10_empty_fasta_guarded.1 get_defaults,
    C10_empty_fasta_guarded.2 [300] get_defaults (by decide)⟩
